import Mathlib

/-!
# Timetable Manager (`Frontend/src/App.jsx`)

A shallow embedding of the single React component `App`: the data loader
`fetchData`, the option derivation `createOptions`, the row filter
`filteredData`, the activity flags and the three table layouts of the
returned markup.

JavaScript values that occur in the component are strings or `undefined`
(an index past the end of an array, a `null` cell).  They are embedded as
`Option String`, `none` standing for the absent value.
-/

namespace TimeTable

/-! ## Data model -/

/-- A JavaScript value that is a string (`some s`) or absent (`none`:
`undefined`, `null`). -/
abbrev JsVal := Option String

/-- A data row as stored in the `data` state: an array of strings. -/
abbrev Row := List String

/-- A row as delivered in `result.values`. -/
abbrev RawRow := List JsVal

/-- The eleven keys of the `filters` object and of `columnMapping`. -/
inductive FilterKey where
  | department
  | year
  | semester
  | section_
  | day
  | faculty
  | facultyCode
  | subject
  | subjectCode
  | venue
  | session
  deriving DecidableEq, Repr

/-- The `filters` state: one array of selected values per key. -/
structure Filters where
  department : List String
  year : List String
  semester : List String
  section_ : List String
  day : List String
  faculty : List String
  facultyCode : List String
  subject : List String
  subjectCode : List String
  venue : List String
  session : List String
  deriving DecidableEq, Repr

/-- Initial value of the `filters` state (lines 11-23). -/
def Filters.initial : Filters :=
  { department := [], year := [], semester := [], section_ := [], day := [],
    faculty := [], facultyCode := [], subject := [], subjectCode := [],
    venue := [], session := [] }

/-- Property access `filters[key]`. -/
def Filters.get (filters : Filters) : FilterKey → List String
  | .department => filters.department
  | .year => filters.year
  | .semester => filters.semester
  | .section_ => filters.section_
  | .day => filters.day
  | .faculty => filters.faculty
  | .facultyCode => filters.facultyCode
  | .subject => filters.subject
  | .subjectCode => filters.subjectCode
  | .venue => filters.venue
  | .session => filters.session

/-- The object spread `{ ...filters, [field]: selection }`: the selection of one
key replaced, the ten others kept. -/
def Filters.set (filters : Filters) (field : FilterKey) (selection : List String) :
    Filters :=
  match field with
  | .department => { filters with department := selection }
  | .year => { filters with year := selection }
  | .semester => { filters with semester := selection }
  | .section_ => { filters with section_ := selection }
  | .day => { filters with day := selection }
  | .faculty => { filters with faculty := selection }
  | .facultyCode => { filters with facultyCode := selection }
  | .subject => { filters with subject := selection }
  | .subjectCode => { filters with subjectCode := selection }
  | .venue => { filters with venue := selection }
  | .session => { filters with session := selection }

/-- Result of `Object.keys(filters)` and of `Object.keys(columnMapping)`:
the keys in insertion order. -/
def objectKeys : List FilterKey :=
  [.department, .year, .semester, .section_, .day, .faculty, .facultyCode,
   .subject, .subjectCode, .venue, .session]

/-- The constant `columnMapping` (lines 59-71). -/
def columnMapping : FilterKey → Nat
  | .department => 0
  | .year => 1
  | .semester => 2
  | .section_ => 3
  | .day => 4
  | .faculty => 8
  | .facultyCode => 9
  | .subject => 7
  | .subjectCode => 5
  | .venue => 11
  | .session => 6

/-- Array indexing `row[columnIndex]`: the cell, or `undefined` past the end. -/
def rowAt (row : Row) (columnIndex : Nat) : JsVal := row[columnIndex]?

/-- JavaScript truthiness of a string-or-absent value: only a non-empty
string is truthy. -/
def truthy : JsVal → Bool
  | some s => s != ""
  | none => false

/-! ## `String.prototype.trim` -/

/-- ECMAScript `WhiteSpace` and `LineTerminator` code points, the characters
removed by `trim`. -/
def isJsWhiteSpace (c : Char) : Bool :=
  decide (c.toNat ∈ [0x09, 0x0A, 0x0B, 0x0C, 0x0D, 0x20, 0xA0, 0x1680,
    0x2000, 0x2001, 0x2002, 0x2003, 0x2004, 0x2005, 0x2006, 0x2007, 0x2008,
    0x2009, 0x200A, 0x2028, 0x2029, 0x202F, 0x205F, 0x3000, 0xFEFF])

/-- Removal of leading white space. -/
def trimStart (cs : List Char) : List Char := cs.dropWhile isJsWhiteSpace

/-- Removal of trailing white space. -/
def trimEnd (cs : List Char) : List Char :=
  (cs.reverse.dropWhile isJsWhiteSpace).reverse

/-- The builtin `cell.trim()`. -/
def jsTrim (s : String) : String := ⟨trimEnd (trimStart s.data)⟩

/-! ## Data loader -/

/-- The `data`, `headers` and `filters` state of the component. -/
structure AppState where
  data : List Row
  headers : RawRow
  filters : Filters
  deriving DecidableEq, Repr

/-- State at mount: the three `useState` defaults. -/
def AppState.initial : AppState :=
  { data := [], headers := [], filters := Filters.initial }

/-- What `await fetch(url)` followed by `await response.json()` produces:
an exception, or a parsed object whose `values` field is absent or holds
the rows. -/
inductive FetchResult where
  | threw
  | parsed (values : Option (List RawRow))
  deriving DecidableEq, Repr

/-- The cell formatter `cell => (cell ? cell.trim() : "")` of line 42. -/
def formatCell (cell : JsVal) : String :=
  match cell with
  | some s => if truthy (some s) then jsTrim s else ""
  | none => ""

/-- The function `fetchData` (lines 29-47) as a state transformer. -/
def fetchData (response : FetchResult) (s : AppState) : AppState :=
  match response with
  | .threw => s
  | .parsed none => s
  | .parsed (some rows) =>
    if h : rows.length < 5 then s
    else
      { s with
        headers := rows.get ⟨4, by omega⟩
        data := (rows.drop 5).map (fun row => row.map formatCell) }

/-! ## Option derivation -/

/-- An entry `{ value, label }` handed to a `Select`. -/
structure SelectOption where
  value : String
  label : String
  deriving DecidableEq, Repr

/-- The method `Set.prototype.add` on the insertion-ordered contents of a set. -/
def setAdd (s : List JsVal) (x : JsVal) : List JsVal :=
  if x ∈ s then s else s ++ [x]

/-- The expression `Array.from(new Set(xs))`: the elements are added one by
one, and the set is read back in insertion order. -/
def arrayFromSet (xs : List JsVal) : List JsVal := xs.foldl setAdd []

/-- The step `.filter(val => val)`: the truthy values, all of them strings. -/
def filterTruthy : List JsVal → List String
  | [] => []
  | some s :: rest => if truthy (some s) then s :: filterTruthy rest else filterTruthy rest
  | none :: rest => filterTruthy rest

/-- The function `createOptions` (lines 53-57). -/
def createOptions (data : List Row) (columnIndex : Nat) : List SelectOption :=
  (filterTruthy (arrayFromSet (data.map (fun row => rowAt row columnIndex)))).map
    (fun val => { value := val, label := val })

/-- The function `handleFilterChange` (lines 49-51): the new value of the
`filters` state. -/
def handleFilterChange (filters : Filters) (selectedOptions : List SelectOption)
    (field : FilterKey) : Filters :=
  filters.set field (selectedOptions.map (fun option => option.value))

/-! ## Filter application -/

/-- The call `filters[key].includes(v)`. -/
def includes (selection : List String) (v : JsVal) : Bool :=
  selection.any (fun s => decide (some s = v))

/-- The callback of `data.filter` (lines 74-82). -/
def rowPasses (filters : Filters) (row : Row) : Bool :=
  objectKeys.all (fun key =>
    let columnIndex := columnMapping key
    if (filters.get key).length = 0 then true
    else includes (filters.get key) (rowAt row columnIndex))

/-- The derived value `filteredData` (lines 74-82). -/
def filteredData (data : List Row) (filters : Filters) : List Row :=
  data.filter (rowPasses filters)

/-! ## Activity flags and view -/

/-- The flag `isFacultyFilterActive` (line 85). -/
def isFacultyFilterActive (filters : Filters) : Bool :=
  decide (filters.faculty.length > 0) || decide (filters.facultyCode.length > 0)

/-- The flag `isVenueFilterActive` (line 86). -/
def isVenueFilterActive (filters : Filters) : Bool :=
  decide (filters.venue.length > 0)

/-- The flag `isSubjectFilterActive` (line 87). -/
def isSubjectFilterActive (filters : Filters) : Bool :=
  decide (filters.subject.length > 0) || decide (filters.subjectCode.length > 0)

/-- The flag `isDayFilterActive` (line 88). -/
def isDayFilterActive (filters : Filters) : Bool :=
  decide (filters.day.length > 0)

/-- The three alternative tables of the markup. -/
inductive ViewKind where
  | facultyView
  | venueView
  | defaultView
  deriving DecidableEq, Repr

/-- Contents of a `tbody`: the placeholder row with its `colSpan`, or one
list of cell contents per `tr`. -/
inductive TableBody where
  | noResults (colSpan : Nat) (text : String)
  | rows (trs : List (List JsVal))
  deriving DecidableEq, Repr

/-- A rendered table: which branch produced it, the `th` contents and the body. -/
structure Table where
  kind : ViewKind
  head : List JsVal
  body : TableBody
  deriving DecidableEq, Repr

/-- A rendered `Select`: its key and its `options`. -/
structure Dropdown where
  key : FilterKey
  options : List SelectOption
  deriving DecidableEq, Repr

/-- The markup returned by `App`. -/
structure Rendered where
  dropdowns : List Dropdown
  table : Table
  deriving DecidableEq, Repr

/-- The filter grid (lines 97-106). -/
def renderFilters (data : List Row) : List Dropdown :=
  objectKeys.map (fun key =>
    { key := key, options := createOptions data (columnMapping key) })

/-- The faculty table (lines 113-142). -/
def facultyTable (filters : Filters) (rows : List Row) : Table :=
  { kind := .facultyView
    head :=
      [some "Faculty", some "Faculty Code", some "Department", some "Year",
       some "Semester", some "Section", some "Subject", some "Subject Code"]
      ++ (if isDayFilterActive filters then [some "Day"] else [])
    body := .rows (rows.map (fun row =>
      [rowAt row (columnMapping .faculty),
       rowAt row (columnMapping .facultyCode),
       rowAt row (columnMapping .department),
       rowAt row (columnMapping .year),
       rowAt row (columnMapping .semester),
       rowAt row (columnMapping .section_),
       rowAt row (columnMapping .subject),
       rowAt row (columnMapping .subjectCode)]
      ++ (if isDayFilterActive filters then [rowAt row (columnMapping .day)] else []))) }

/-- The venue table (lines 145-166). -/
def venueTable (rows : List Row) : Table :=
  { kind := .venueView
    head := [some "Venue", some "Faculty", some "Subject", some "Subject Code", some "Day"]
    body := .rows (rows.map (fun row =>
      [rowAt row (columnMapping .venue),
       rowAt row (columnMapping .faculty),
       rowAt row (columnMapping .subject),
       rowAt row (columnMapping .subjectCode),
       rowAt row (columnMapping .day)])) }

/-- The default table (lines 169-192). -/
def defaultTable (headers : RawRow) (rows : List Row) : Table :=
  { kind := .defaultView
    head := headers.map (fun header => header)
    body :=
      if rows.length = 0 then .noResults headers.length "No results found."
      else .rows (rows.map (fun row => row.map (fun cell => some cell))) }

/-- The ternary chain of lines 111-193. -/
def renderTable (s : AppState) : Table :=
  if isFacultyFilterActive s.filters then
    facultyTable s.filters (filteredData s.data s.filters)
  else if isVenueFilterActive s.filters then
    venueTable (filteredData s.data s.filters)
  else
    defaultTable s.headers (filteredData s.data s.filters)

/-- The component body: the markup for the current state. -/
def render (s : AppState) : Rendered :=
  { dropdowns := renderFilters s.data, table := renderTable s }

/-! ## Reachable states -/

/-- The states the component can be in.  It mounts in the initial state; the
only writers of the state are `fetchData` (`setHeaders`, `setData`) and the
`onChange` of a `Select` (`setFilters` through `handleFilterChange`), which
hands over options picked among those the `Select` of that key offers in the
current render. -/
inductive Reachable : AppState → Prop where
  | mount : Reachable AppState.initial
  | fetched (s : AppState) (response : FetchResult) :
      Reachable s → Reachable (fetchData response s)
  | changed (s : AppState) (field : FilterKey) (selectedOptions : List SelectOption) :
      Reachable s →
      (∀ option ∈ selectedOptions, option ∈ createOptions s.data (columnMapping field)) →
      Reachable { s with filters := handleFilterChange s.filters selectedOptions field }

/-! ## Scenario data -/

/-- The header row of the scenario of the specification. -/
def scenarioHeaders : RawRow :=
  [some "Dept", some "Year", some "Sem", some "Sec", some "Day", some "SubjCode",
   some "Session", some "Subject", some "Faculty", some "FacCode", some "X", some "Venue"]

/-- The data row of the scenario of the specification. -/
def scenarioRow : Row :=
  ["CS", "2", "1", "A", "Mon", "CS101", "S1", "Algorithms", "Dr. Smith", "FAC1", "", "Room5"]

/-- The scenario with the faculty selection "Dr. Smith". -/
def scenarioFaculty : AppState :=
  { data := [scenarioRow], headers := scenarioHeaders,
    filters := { Filters.initial with faculty := ["Dr. Smith"] } }

/-- The scenario with the faculty selection "Dr. Smith" and the day selection "Mon". -/
def scenarioFacultyDay : AppState :=
  { data := [scenarioRow], headers := scenarioHeaders,
    filters := { Filters.initial with faculty := ["Dr. Smith"], day := ["Mon"] } }

/-- The scenario row with another value in the unmapped column 10. -/
def scenarioRowX : Row :=
  ["CS", "2", "1", "A", "Mon", "CS101", "S1", "Algorithms", "Dr. Smith", "FAC1", "other", "Room5"]

/-- A filter state with the department selection "CS". -/
def departmentFilters : Filters :=
  { Filters.initial with department := ["CS"] }

/-- A response of six rows: four title rows, the header row and one data row
whose cells carry surrounding white space, an empty cell and a null cell. -/
def scenarioResponse : List RawRow :=
  [[some "Timetable"], [], [some "2024"], [],
   [some " Dept ", some "Year"],
   [some "  CS ", some "2\t", some "", none, some "Dr. Smith "]]

/-- The state after the scenario response is loaded and "CS" is picked in the
department dropdown. -/
def scenarioLoadedDepartment : AppState :=
  { fetchData (FetchResult.parsed (some scenarioResponse)) AppState.initial with
    filters := handleFilterChange
      (fetchData (FetchResult.parsed (some scenarioResponse)) AppState.initial).filters
      [{ value := "CS", label := "CS" }] FilterKey.department }

/-! ## Specification-side predicates -/

/-- One filter constraint in the words of the specification: the selection is
empty, or the cell of the row at the given index is a member of it. -/
def KeyAdmits (selection : List String) (row : Row) (index : Nat) : Prop :=
  selection = [] ∨ ∃ cell ∈ selection, row[index]? = some cell

instance (selection : List String) (row : Row) (index : Nat) :
    Decidable (KeyAdmits selection row index) := by
  unfold KeyAdmits; infer_instance

/-- The conjunction of the eleven constraints, each key with its index as the
specification lists them. -/
def PassesAll (F : Filters) (row : Row) : Prop :=
  KeyAdmits F.department row 0 ∧ KeyAdmits F.year row 1 ∧
  KeyAdmits F.semester row 2 ∧ KeyAdmits F.section_ row 3 ∧
  KeyAdmits F.day row 4 ∧ KeyAdmits F.faculty row 8 ∧
  KeyAdmits F.facultyCode row 9 ∧ KeyAdmits F.subject row 7 ∧
  KeyAdmits F.subjectCode row 5 ∧ KeyAdmits F.venue row 11 ∧
  KeyAdmits F.session row 6

instance (F : Filters) (row : Row) : Decidable (PassesAll F row) := by
  unfold PassesAll; infer_instance

/-- A row padded with empty-string cells up to index 11. -/
def padRow (row : Row) : Row := row ++ List.replicate (12 - row.length) ""

/-- First-occurrence order in the words of the specification: in the column,
the value `v` occurs at a position before which neither `v` nor `w` occurs. -/
def FirstSeenBefore (column : List JsVal) (v w : String) : Prop :=
  ∃ before after, column = before ++ some v :: after
    ∧ some v ∉ before ∧ some w ∉ before

/-- Whitespace-trimmed text in the words of the specification: the text `t`
is what remains of the cell once its leading and its trailing white space are
removed; a missing cell has the empty text. -/
def IsTrimmedTextOf (t : String) (cell : JsVal) : Prop :=
  match cell with
  | none => t = ""
  | some c =>
    ∃ leading trailing : List Char,
      c.data = leading ++ t.data ++ trailing
        ∧ (∀ ch ∈ leading, isJsWhiteSpace ch = true)
        ∧ (∀ ch ∈ trailing, isJsWhiteSpace ch = true)
        ∧ (∀ ch, t.data.head? = some ch → isJsWhiteSpace ch = false)
        ∧ (∀ ch, t.data.getLast? = some ch → isJsWhiteSpace ch = false)

/-! ## Filter application: lemmas -/

theorem includes_eq_true_iff (selection : List String) (v : JsVal) :
    includes selection v = true ↔ ∃ cell ∈ selection, v = some cell := by
  unfold includes
  simp only [List.any_eq_true, decide_eq_true_eq]
  constructor
  · rintro ⟨c, hc, h⟩
    exact ⟨c, hc, h.symm⟩
  · rintro ⟨c, hc, h⟩
    exact ⟨c, hc, h.symm⟩

theorem keyTest_iff (selection : List String) (row : Row) (index : Nat) :
    (if selection.length = 0 then true else includes selection (rowAt row index)) = true
      ↔ KeyAdmits selection row index := by
  unfold KeyAdmits
  by_cases h : selection = []
  · simp [h]
  · have hlen : ¬ selection.length = 0 := by
      simpa [List.length_eq_zero] using h
    simp only [hlen, if_false, includes_eq_true_iff, rowAt, h, false_or]

theorem rowPasses_iff (F : Filters) (row : Row) :
    rowPasses F row = true ↔ PassesAll F row := by
  unfold rowPasses PassesAll objectKeys
  simp only [List.all_cons, List.all_nil, Bool.and_true, Bool.and_eq_true,
    keyTest_iff, Filters.get, columnMapping]

/-! ## Claims -/

/-- C1: for every dataset and every filter state, `filteredData` is exactly the
rows of the dataset, in their original order, that satisfy all eleven
constraints: each key's selection is empty or contains the row's cell at the
key's index (0, 1, 2, 3, 4, 8, 9, 7, 5, 11, 6). -/
theorem filteredData_eq_filter_passesAll (D : List Row) (F : Filters) :
    filteredData D F = D.filter (fun row => decide (PassesAll F row)) := by
  unfold filteredData
  apply List.filter_congr
  intro row _
  by_cases h : PassesAll F row
  · simp [h, (rowPasses_iff F row).2 h]
  · have : rowPasses F row = false := by
      cases hp : rowPasses F row
      · rfl
      · exact absurd ((rowPasses_iff F row).1 hp) h
    simp [h, this]

/-- C6: filtering is idempotent: filtering the already filtered rows with the
same filter state gives the same rows. -/
theorem filteredData_idempotent (D : List Row) (F : Filters) :
    filteredData (filteredData D F) F = filteredData D F := by
  unfold filteredData
  rw [List.filter_filter]
  apply List.filter_congr
  intro row _
  exact Bool.and_self _

/-- C7: with all eleven selections empty the filtered result is the dataset
itself, whatever the lengths of its rows; a filter state whose eleven
selections are empty is the initial filter state. -/
theorem filteredData_initial (D : List Row) :
    filteredData D Filters.initial = D
      ∧ (∀ key, Filters.initial.get key = [])
      ∧ ∀ F : Filters, (∀ key, F.get key = []) → filteredData D F = D := by
  have hinit : filteredData D Filters.initial = D := by
    unfold filteredData
    rw [List.filter_eq_self]
    intro row _
    rfl
  refine ⟨hinit, ?_, ?_⟩
  · intro key
    cases key <;> rfl
  · intro F hF
    have hEq : F = Filters.initial := by
      have h1 := hF FilterKey.department
      have h2 := hF FilterKey.year
      have h3 := hF FilterKey.semester
      have h4 := hF FilterKey.section_
      have h5 := hF FilterKey.day
      have h6 := hF FilterKey.faculty
      have h7 := hF FilterKey.facultyCode
      have h8 := hF FilterKey.subject
      have h9 := hF FilterKey.subjectCode
      have h10 := hF FilterKey.venue
      have h11 := hF FilterKey.session
      cases F
      simp only [Filters.get] at h1 h2 h3 h4 h5 h6 h7 h8 h9 h10 h11
      subst h1 h2 h3 h4 h5 h6 h7 h8 h9 h10 h11
      rfl
    rw [hEq]
    exact hinit

/-- C2: the view is a function of the filter state alone, chosen by fixed
priority: Faculty View when the faculty or facultyCode selection is non-empty,
otherwise Venue View when the venue selection is non-empty, otherwise Default
View; the dataset, the headers and the eight other selections never change
the choice. -/
theorem view_selection_priority (s : AppState) :
    (renderTable s).kind =
        (if s.filters.faculty ≠ [] ∨ s.filters.facultyCode ≠ [] then ViewKind.facultyView
         else if s.filters.venue ≠ [] then ViewKind.venueView
         else ViewKind.defaultView)
      ∧ ∀ (data : List Row) (headers : RawRow)
          (department year semester section_ day subject subjectCode session : List String),
          (renderTable
            { data := data, headers := headers,
              filters :=
                { department := department, year := year, semester := semester,
                  section_ := section_, day := day, faculty := s.filters.faculty,
                  facultyCode := s.filters.facultyCode, subject := subject,
                  subjectCode := subjectCode, venue := s.filters.venue,
                  session := session } }).kind = (renderTable s).kind := by
  have key : ∀ t : AppState, (renderTable t).kind =
      (if t.filters.faculty ≠ [] ∨ t.filters.facultyCode ≠ [] then ViewKind.facultyView
       else if t.filters.venue ≠ [] then ViewKind.venueView
       else ViewKind.defaultView) := by
    intro t
    unfold renderTable isFacultyFilterActive isVenueFilterActive
    by_cases h1 : t.filters.faculty = []
    · by_cases h2 : t.filters.facultyCode = []
      · by_cases h3 : t.filters.venue = []
        · simp [h1, h2, h3, defaultTable]
        · have : 0 < t.filters.venue.length := List.length_pos.2 h3
          simp [h1, h2, h3, this, venueTable]
      · have : 0 < t.filters.facultyCode.length := List.length_pos.2 h2
        simp [h1, h2, this, facultyTable]
    · have : 0 < t.filters.faculty.length := List.length_pos.2 h1
      simp [h1, this, facultyTable]
  refine ⟨key s, ?_⟩
  intro data headers department year semester section_ day subject subjectCode session
  rw [key, key s]

theorem isFacultyFilterActive_iff (F : Filters) :
    isFacultyFilterActive F = true ↔ (F.faculty ≠ [] ∨ F.facultyCode ≠ []) := by
  unfold isFacultyFilterActive
  simp [List.length_pos]

theorem isDayFilterActive_iff (F : Filters) :
    isDayFilterActive F = true ↔ F.day ≠ [] := by
  unfold isDayFilterActive
  simp [List.length_pos]

/-- C5: when the faculty or facultyCode selection is non-empty the rendered
table is the Faculty View: its columns are Faculty, Faculty Code, Department,
Year, Semester, Section, Subject, Subject Code, followed by Day exactly when
the day selection is non-empty, and its body is the filtered rows in order,
each projected to the cells at indices 8, 9, 0, 1, 2, 3, 7, 5 (followed by
index 4 exactly when the day selection is non-empty). -/
theorem facultyView_columns_and_body (s : AppState)
    (h : s.filters.faculty ≠ [] ∨ s.filters.facultyCode ≠ []) :
    renderTable s =
      { kind := ViewKind.facultyView
        head :=
          (["Faculty", "Faculty Code", "Department", "Year", "Semester", "Section",
            "Subject", "Subject Code"]
            ++ (if s.filters.day ≠ [] then ["Day"] else [])).map some
        body := TableBody.rows ((filteredData s.data s.filters).map (fun row =>
          ([8, 9, 0, 1, 2, 3, 7, 5] ++ (if s.filters.day ≠ [] then [4] else [])).map
            (fun index => row[index]?))) } := by
  have hf : isFacultyFilterActive s.filters = true := (isFacultyFilterActive_iff _).2 h
  unfold renderTable
  rw [if_pos hf]
  unfold facultyTable
  by_cases hd : s.filters.day = []
  · have hday : isDayFilterActive s.filters = false := by
      cases hb : isDayFilterActive s.filters
      · rfl
      · exact absurd hd ((isDayFilterActive_iff _).1 hb)
    simp [hday, hd, rowAt, columnMapping]
  · have hday : isDayFilterActive s.filters = true := (isDayFilterActive_iff _).2 hd
    simp [hday, hd, rowAt, columnMapping]

/-- Witness of C5 on the scenario of the specification: with faculty
"Dr. Smith" selected the row shown is Dr. Smith, FAC1, CS, 2, 1, A, Algorithms,
CS101; with day "Mon" selected as well a final cell Mon is appended. -/
theorem facultyView_scenario :
    (scenarioFaculty.filters.faculty ≠ [] ∨ scenarioFaculty.filters.facultyCode ≠ [])
      ∧ renderTable scenarioFaculty =
          { kind := ViewKind.facultyView
            head := [some "Faculty", some "Faculty Code", some "Department", some "Year",
              some "Semester", some "Section", some "Subject", some "Subject Code"]
            body := TableBody.rows [[some "Dr. Smith", some "FAC1", some "CS", some "2",
              some "1", some "A", some "Algorithms", some "CS101"]] }
      ∧ renderTable scenarioFacultyDay =
          { kind := ViewKind.facultyView
            head := [some "Faculty", some "Faculty Code", some "Department", some "Year",
              some "Semester", some "Section", some "Subject", some "Subject Code",
              some "Day"]
            body := TableBody.rows [[some "Dr. Smith", some "FAC1", some "CS", some "2",
              some "1", some "A", some "Algorithms", some "CS101", some "Mon"]] } := by
  refine ⟨Or.inl (by decide), ?_, ?_⟩
  · rw [facultyView_columns_and_body scenarioFaculty (Or.inl (by decide))]
    decide
  · rw [facultyView_columns_and_body scenarioFacultyDay (Or.inl (by decide))]
    decide

theorem columnMapping_le (key : FilterKey) : columnMapping key ≤ 11 := by
  cases key <;> decide

theorem columnMapping_ne (key : FilterKey) : columnMapping key ≠ 10 := by
  cases key <;> decide

theorem rowPasses_congr (F : Filters) (r1 r2 : Row)
    (h : ∀ key, rowAt r1 (columnMapping key) = rowAt r2 (columnMapping key)) :
    rowPasses F r1 = rowPasses F r2 := by
  unfold rowPasses
  congr 1
  funext key
  simp only [h key]

theorem filteredData_count (D : List Row) (F : Filters) (row : Row)
    (h : rowPasses F row = true) :
    (filteredData D F).count row = D.count row := by
  unfold filteredData
  exact List.count_filter h

theorem count_map_some (rows : List Row) (r : Row) :
    (rows.map (fun row => row.map (some : String → JsVal))).count (r.map some)
      = rows.count r := by
  induction rows with
  | nil => rfl
  | cons x xs ih =>
    simp only [List.map_cons, List.count_cons, ih]
    congr 1
    by_cases h : x = r
    · subst h
      simp
    · have hne : x.map (some : String → JsVal) ≠ r.map some := by
        intro heq
        exact h (List.map_injective_iff.2 (Option.some_injective _) heq)
      simp [h, hne]

/-- C10: two rows that agree at every mapped index (0 to 9 and 11) and differ
at the unmapped index 10 either both pass the filter or neither does; when
they pass and the Default View is shown, its body keeps each of them as often
as the dataset holds it, rendered with its own cells, and the two renderings
differ; their Faculty View projections are equal and their Venue View
projections are equal. -/
theorem unmapped_column_rows (F : Filters) (r1 r2 : Row)
    (hagree : ∀ index, index ≤ 11 → index ≠ 10 → r1[index]? = r2[index]?)
    (hdiff : r1[10]? ≠ r2[10]?) :
    rowPasses F r1 = rowPasses F r2
      ∧ (∀ (D : List Row) (headers : RawRow), r1 ∈ D → r2 ∈ D →
          rowPasses F r1 = true → F.faculty = [] → F.facultyCode = [] → F.venue = [] →
          ∃ trs, renderTable { data := D, headers := headers, filters := F }
              = { kind := ViewKind.defaultView, head := headers, body := TableBody.rows trs }
            ∧ trs = (filteredData D F).map (fun row => row.map some)
            ∧ trs.count (r1.map some) = D.count r1
            ∧ trs.count (r2.map some) = D.count r2
            ∧ r1.map some ≠ r2.map some)
      ∧ facultyTable F [r1] = facultyTable F [r2]
      ∧ venueTable [r1] = venueTable [r2] := by
  have hkey : ∀ key, rowAt r1 (columnMapping key) = rowAt r2 (columnMapping key) := by
    intro key
    exact hagree _ (columnMapping_le key) (columnMapping_ne key)
  have hpass : rowPasses F r1 = rowPasses F r2 := rowPasses_congr F r1 r2 hkey
  have hinj : Function.Injective (fun row : Row => row.map (some : String → JsVal)) :=
    List.map_injective_iff.2 (Option.some_injective _)
  refine ⟨hpass, ?_, ?_, ?_⟩
  · intro D headers hm1 hm2 hp hfac hcode hven
    refine ⟨(filteredData D F).map (fun row => row.map some), ?_, rfl, ?_, ?_, ?_⟩
    · have hne : filteredData D F ≠ [] := by
        intro hnil
        have : r1 ∈ filteredData D F := by
          unfold filteredData
          exact List.mem_filter.2 ⟨hm1, hp⟩
        rw [hnil] at this
        exact absurd this (List.not_mem_nil _)
      have hlen : ¬ (filteredData D F).length = 0 := by
        simpa [List.length_eq_zero] using hne
      unfold renderTable isFacultyFilterActive isVenueFilterActive defaultTable
      simp [hfac, hcode, hven, hlen]
    · exact (count_map_some (filteredData D F) r1).trans (filteredData_count D F r1 hp)
    · exact (count_map_some (filteredData D F) r2).trans
        (filteredData_count D F r2 (hpass ▸ hp))
    · intro heq
      apply hdiff
      rw [hinj heq]
  · unfold facultyTable
    simp only [List.map_cons, List.map_nil, hkey]
  · unfold venueTable
    simp only [List.map_cons, List.map_nil, hkey]

/-- Witness of C10: the scenario row and its variant with another value at
index 10, under the department selection "CS". -/
theorem unmapped_column_rows_scenario :
    rowPasses departmentFilters scenarioRow = rowPasses departmentFilters scenarioRowX
      ∧ rowPasses departmentFilters scenarioRow = true
      ∧ renderTable
            { data := [scenarioRow, scenarioRowX], headers := scenarioHeaders,
              filters := departmentFilters }
          = { kind := ViewKind.defaultView, head := scenarioHeaders,
              body := TableBody.rows [scenarioRow.map some, scenarioRowX.map some] }
      ∧ facultyTable departmentFilters [scenarioRow]
          = facultyTable departmentFilters [scenarioRowX]
      ∧ venueTable [scenarioRow] = venueTable [scenarioRowX] := by
  have h := unmapped_column_rows departmentFilters scenarioRow scenarioRowX
    (by decide) (by decide)
  exact ⟨h.1, by decide, by decide, h.2.2.1, h.2.2.2⟩

theorem includes_none (selection : List String) : includes selection none = false := by
  cases h : includes selection none
  · rfl
  · obtain ⟨cell, _, hc⟩ := (includes_eq_true_iff selection none).1 h
    exact absurd hc (by simp)

theorem includes_empty_string (selection : List String) (h : "" ∉ selection) :
    includes selection (some "") = false := by
  cases hi : includes selection (some "")
  · rfl
  · obtain ⟨cell, hmem, hc⟩ := (includes_eq_true_iff selection (some "")).1 hi
    have : cell = "" := (Option.some.inj hc).symm
    exact absurd (this ▸ hmem) h

theorem rowAt_padRow_of_lt (row : Row) (index : Nat) (h : index < row.length) :
    rowAt (padRow row) index = rowAt row index := by
  unfold rowAt padRow
  exact List.getElem?_append_left h

theorem rowAt_padRow_of_ge (row : Row) (index : Nat) (h : row.length ≤ index)
    (h11 : index ≤ 11) : rowAt (padRow row) index = some "" := by
  unfold rowAt padRow
  rw [List.getElem?_append_right h, List.getElem?_replicate]
  have : index - row.length < 12 - row.length := by omega
  simp [this]

theorem rowAt_of_ge (row : Row) (index : Nat) (h : row.length ≤ index) :
    rowAt row index = none := by
  unfold rowAt
  exact List.getElem?_eq_none h

/-- C4: when the parsed result lacks the values field or holds fewer than five
rows, `fetchData` leaves the state unchanged, so headers and data keep their
empty defaults; in the render that follows each of the eleven dropdowns has
an empty option list and the table is the Default View whose body is the
single placeholder row "No results found.". -/
theorem fetchData_insufficient_rows (response : FetchResult)
    (h : response = FetchResult.parsed none
      ∨ ∃ rows, response = FetchResult.parsed (some rows) ∧ rows.length < 5) :
    (∀ s, fetchData response s = s)
      ∧ (fetchData response AppState.initial).data = []
      ∧ (fetchData response AppState.initial).headers = []
      ∧ (render (fetchData response AppState.initial)).dropdowns
          = objectKeys.map (fun key => { key := key, options := [] })
      ∧ (render (fetchData response AppState.initial)).dropdowns.length = 11
      ∧ (render (fetchData response AppState.initial)).table
          = { kind := ViewKind.defaultView, head := [],
              body := TableBody.noResults 0 "No results found." } := by
  have hs : ∀ s, fetchData response s = s := by
    intro s
    rcases h with h | ⟨rows, h, hlen⟩
    · subst h
      rfl
    · subst h
      unfold fetchData
      simp only [hlen, dite_true]
  refine ⟨hs, ?_, ?_, ?_, ?_, ?_⟩
  · rw [hs]; rfl
  · rw [hs]; rfl
  · rw [hs]; rfl
  · rw [hs]; rfl
  · rw [hs]; rfl

/-- Witness of C4: a response of two rows. -/
theorem fetchData_two_rows :
    (fetchData (FetchResult.parsed (some [[some "Title"], [some "x", some "y"]]))
        AppState.initial) = AppState.initial
      ∧ (render (fetchData (FetchResult.parsed (some [[some "Title"], [some "x", some "y"]]))
          AppState.initial)).table
          = { kind := ViewKind.defaultView, head := [],
              body := TableBody.noResults 0 "No results found." } := by
  have h := fetchData_insufficient_rows
    (FetchResult.parsed (some [[some "Title"], [some "x", some "y"]]))
    (Or.inr ⟨_, rfl, by decide⟩)
  exact ⟨h.1 _, h.2.2.2.2.2⟩

/-! ## Option derivation: lemmas -/

theorem arrayFromSet_snoc (xs : List JsVal) (x : JsVal) :
    arrayFromSet (xs ++ [x]) = setAdd (arrayFromSet xs) x := by
  unfold arrayFromSet
  rw [List.foldl_append]
  rfl

theorem mem_arrayFromSet (xs : List JsVal) :
    ∀ v : JsVal, v ∈ arrayFromSet xs ↔ v ∈ xs := by
  induction xs using List.reverseRecOn with
  | nil => simp [arrayFromSet]
  | append_singleton xs x ih =>
    intro v
    rw [arrayFromSet_snoc]
    unfold setAdd
    by_cases hx : x ∈ arrayFromSet xs
    · rw [if_pos hx, ih, List.mem_append, List.mem_singleton]
      constructor
      · exact Or.inl
      · rintro (h | h)
        · exact h
        · rw [h]
          exact (ih x).1 hx
    · rw [if_neg hx, List.mem_append, List.mem_append, ih]

theorem nodup_arrayFromSet (xs : List JsVal) : (arrayFromSet xs).Nodup := by
  induction xs using List.reverseRecOn with
  | nil => simp [arrayFromSet]
  | append_singleton xs x ih =>
    rw [arrayFromSet_snoc]
    unfold setAdd
    by_cases hx : x ∈ arrayFromSet xs
    · rw [if_pos hx]
      exact ih
    · rw [if_neg hx]
      exact List.Nodup.append ih (List.nodup_singleton x)
        (by
          intro a ha hb
          rw [List.mem_singleton] at hb
          exact hx (hb ▸ ha))

theorem first_split (xs : List JsVal) (a : JsVal) (h : a ∈ xs) :
    ∃ before after, xs = before ++ a :: after ∧ a ∉ before := by
  induction xs with
  | nil => exact absurd h (List.not_mem_nil a)
  | cons y ys ih =>
    by_cases hy : y = a
    · exact ⟨[], ys, by rw [hy]; rfl, List.not_mem_nil a⟩
    · have hmem : a ∈ ys := by
        rcases List.mem_cons.1 h with h1 | h1
        · exact absurd h1.symm hy
        · exact h1
      obtain ⟨before, after, heq, hnot⟩ := ih hmem
      refine ⟨y :: before, after, by rw [heq]; rfl, ?_⟩
      intro hin
      rcases List.mem_cons.1 hin with h1 | h1
      · exact hy h1.symm
      · exact hnot h1

theorem pairwise_arrayFromSet (xs : List JsVal) :
    (arrayFromSet xs).Pairwise (fun a b =>
      ∃ before after, xs = before ++ a :: after ∧ a ∉ before ∧ b ∉ before) := by
  induction xs using List.reverseRecOn with
  | nil => simp [arrayFromSet]
  | append_singleton xs x ih =>
    have ih2 : (arrayFromSet xs).Pairwise (fun a b =>
        ∃ before after, xs ++ [x] = before ++ a :: after ∧ a ∉ before ∧ b ∉ before) := by
      refine ih.imp ?_
      rintro a b ⟨before, after, heq, ha, hb⟩
      exact ⟨before, after ++ [x], by rw [heq]; simp, ha, hb⟩
    rw [arrayFromSet_snoc]
    unfold setAdd
    by_cases hx : x ∈ arrayFromSet xs
    · rw [if_pos hx]
      exact ih2
    · rw [if_neg hx, List.pairwise_append]
      refine ⟨ih2, List.pairwise_singleton _ _, ?_⟩
      intro a ha b hb
      rw [List.mem_singleton] at hb
      subst hb
      have hxs : b ∉ xs := fun hmem => hx ((mem_arrayFromSet xs b).2 hmem)
      obtain ⟨before, after, heq, hnot⟩ := first_split xs a ((mem_arrayFromSet xs a).1 ha)
      refine ⟨before, after ++ [b], by rw [heq]; simp, hnot, ?_⟩
      intro hin
      apply hxs
      rw [heq]
      exact List.mem_append_left _ hin

theorem map_some_filterTruthy (l : List JsVal) :
    (filterTruthy l).map some = l.filter truthy := by
  induction l with
  | nil => rfl
  | cons x rest ih =>
    cases x with
    | none => simp [filterTruthy, truthy, ih]
    | some s =>
      by_cases ht : truthy (some s) = true
      · simp [filterTruthy, ht, ih]
      · simp [filterTruthy, ht, ih]

theorem mem_filterTruthy (l : List JsVal) (v : String) :
    v ∈ filterTruthy l ↔ v ≠ "" ∧ some v ∈ l := by
  have h : some v ∈ (filterTruthy l).map some ↔ some v ∈ l.filter truthy := by
    rw [map_some_filterTruthy]
  rw [List.mem_map_of_injective (Option.some_injective _), List.mem_filter] at h
  rw [h]
  simp [truthy, and_comm]

theorem createOptions_values (data : List Row) (c : Nat) :
    (createOptions data c).map (fun o => o.value)
      = filterTruthy (arrayFromSet (data.map (fun row => rowAt row c))) := by
  unfold createOptions
  rw [List.map_map]
  exact List.map_id _

/-- C8: for every loaded dataset and every column index, the values of
`createOptions` are the distinct non-empty cells found at that index in the
loaded rows: without duplicates, each one a non-empty string that some row
holds at the index (a row without such a cell and an empty cell contribute
nothing), in order of first occurrence; every option pairs its value with
itself as label, and the dropdowns are built from the loaded data whatever the
filter state. -/
theorem createOptions_distinct_first_seen (data : List Row) (c : Nat) :
    createOptions data c
        = ((createOptions data c).map (fun o => o.value)).map
            (fun v => { value := v, label := v })
      ∧ ((createOptions data c).map (fun o => o.value)).Nodup
      ∧ (∀ v, v ∈ (createOptions data c).map (fun o => o.value)
          ↔ v ≠ "" ∧ ∃ row ∈ data, row[c]? = some v)
      ∧ ((createOptions data c).map (fun o => o.value)).Pairwise
          (FirstSeenBefore (data.map (fun row => row[c]?)))
      ∧ ∀ (headers : RawRow) (F : Filters),
          (render { data := data, headers := headers, filters := F }).dropdowns
            = objectKeys.map (fun key =>
                { key := key, options := createOptions data (columnMapping key) }) := by
  have hsome : ((filterTruthy (arrayFromSet (data.map (fun row => rowAt row c)))).map some)
      = (arrayFromSet (data.map (fun row => rowAt row c))).filter truthy :=
    map_some_filterTruthy _
  refine ⟨?_, ?_, ?_, ?_, ?_⟩
  · rw [createOptions_values]
    rfl
  · rw [createOptions_values]
    apply List.Nodup.of_map some
    rw [hsome]
    exact (nodup_arrayFromSet _).filter _
  · intro v
    rw [createOptions_values, mem_filterTruthy, mem_arrayFromSet, List.mem_map]
    rfl
  · rw [createOptions_values]
    have hp := (pairwise_arrayFromSet (data.map (fun row => rowAt row c))).filter truthy
    rw [← hsome, List.pairwise_map] at hp
    exact hp
  · intro headers F
    rfl

/-! ## Data loader: lemmas -/

theorem head_dropWhile_false (p : Char → Bool) (l : List Char) (ch : Char)
    (h : (l.dropWhile p).head? = some ch) : p ch = false := by
  have hnot := List.head?_dropWhile_not p l
  rw [h] at hnot
  exact hnot

theorem trimEnd_split (d : List Char) :
    d = trimEnd d ++ (d.reverse.takeWhile isJsWhiteSpace).reverse := by
  unfold trimEnd
  rw [← List.reverse_append, List.takeWhile_append_dropWhile, List.reverse_reverse]

theorem jsTrim_spec (c : String) : IsTrimmedTextOf (jsTrim c) (some c) := by
  unfold IsTrimmedTextOf
  refine ⟨c.data.takeWhile isJsWhiteSpace,
    ((trimStart c.data).reverse.takeWhile isJsWhiteSpace).reverse, ?_, ?_, ?_, ?_, ?_⟩
  · show c.data = List.takeWhile isJsWhiteSpace c.data ++ trimEnd (trimStart c.data)
      ++ ((trimStart c.data).reverse.takeWhile isJsWhiteSpace).reverse
    rw [List.append_assoc, ← trimEnd_split (trimStart c.data)]
    unfold trimStart
    exact (List.takeWhile_append_dropWhile isJsWhiteSpace c.data).symm
  · intro ch hch
    exact List.mem_takeWhile_imp hch
  · intro ch hch
    exact List.mem_takeWhile_imp (List.mem_reverse.1 hch)
  · intro ch hch
    have hch2 : (trimEnd (trimStart c.data)).head? = some ch := hch
    have hne : trimEnd (trimStart c.data) ≠ [] := by
      intro hnil
      rw [hnil] at hch2
      exact absurd hch2 (by simp)
    have hsplit := trimEnd_split (trimStart c.data)
    have hhead : (trimStart c.data).head? = some ch := by
      rw [hsplit, List.head?_append_of_ne_nil _ hne]
      exact hch2
    exact head_dropWhile_false isJsWhiteSpace c.data ch hhead
  · intro ch hch
    have hch2 : (trimEnd (trimStart c.data)).getLast? = some ch := hch
    unfold trimEnd at hch2
    rw [List.getLast?_reverse] at hch2
    exact head_dropWhile_false isJsWhiteSpace _ ch hch2

theorem formatCell_spec (cell : JsVal) : IsTrimmedTextOf (formatCell cell) cell := by
  cases cell with
  | none => rfl
  | some c =>
    by_cases ht : truthy (some c) = true
    · have : formatCell (some c) = jsTrim c := by
        unfold formatCell
        simp only [ht, if_true]
      rw [this]
      exact jsTrim_spec c
    · have hf : formatCell (some c) = "" := by
        unfold formatCell
        simp only [ht]
        rfl
      have hc : c = "" := by
        unfold truthy at ht
        simpa using ht
      rw [hf, hc]
      exact ⟨[], [], rfl, by simp, by simp, by simp, by simp⟩

theorem fetchData_of_rows (R : List RawRow) (h : 5 ≤ R.length) (s : AppState) :
    fetchData (FetchResult.parsed (some R)) s
      = { data := (R.drop 5).map (fun row => row.map formatCell),
          headers := (R[4]?).getD [],
          filters := s.filters } := by
  have hlt : ¬ R.length < 5 := by omega
  have h4 : 4 < R.length := by omega
  unfold fetchData
  simp only [hlt, dite_false]
  rw [List.getElem?_eq_getElem h4]
  rfl

/-- C3: when the values field holds at least five rows, after `fetchData` the
headers state is row 4 as delivered (not trimmed) and the data state is the
rows from index 5 on, in order, each with as many cells as the delivered row
and each cell replaced by its whitespace-trimmed text (the empty string for a
falsy or missing cell); the filters are untouched, rows 0 to 3 do not
influence the result, and with exactly five rows the data state is empty. -/
theorem fetchData_header_and_rows (R : List RawRow) (h : 5 ≤ R.length) (s : AppState) :
    some (fetchData (FetchResult.parsed (some R)) s).headers = R[4]?
      ∧ (fetchData (FetchResult.parsed (some R)) s).filters = s.filters
      ∧ (fetchData (FetchResult.parsed (some R)) s).data.length = R.length - 5
      ∧ (∀ (i : Nat) (rawRow : RawRow), R[5 + i]? = some rawRow →
          ∃ row, (fetchData (FetchResult.parsed (some R)) s).data[i]? = some row
            ∧ row.length = rawRow.length
            ∧ ∀ (j : Nat) (cell : JsVal), rawRow[j]? = some cell →
                ∃ t, row[j]? = some t ∧ IsTrimmedTextOf t cell)
      ∧ (R.length = 5 → (fetchData (FetchResult.parsed (some R)) s).data = [])
      ∧ (∀ R' : List RawRow, R'.drop 4 = R.drop 4 →
          fetchData (FetchResult.parsed (some R')) s
            = fetchData (FetchResult.parsed (some R)) s) := by
  have h4 : 4 < R.length := by omega
  rw [fetchData_of_rows R h s]
  refine ⟨?_, rfl, ?_, ?_, ?_, ?_⟩
  · simp only [List.getElem?_eq_getElem h4, Option.getD_some]
  · simp only [List.length_map, List.length_drop]
  · intro i rawRow hi
    refine ⟨rawRow.map formatCell, ?_, List.length_map _ _, ?_⟩
    · simp only [List.getElem?_map, List.getElem?_drop, hi, Option.map_some']
    · intro j cell hj
      refine ⟨formatCell cell, ?_, formatCell_spec cell⟩
      simp only [List.getElem?_map, hj, Option.map_some']
  · intro h5
    have : R.drop 5 = [] := List.drop_eq_nil_of_le (by omega)
    simp only [this, List.map_nil]
  · intro R' hR'
    have hlen : R'.length - 4 = R.length - 4 := by
      have := congrArg List.length hR'
      simpa only [List.length_drop] using this
    have h' : 5 ≤ R'.length := by omega
    rw [fetchData_of_rows R' h' s]
    have e4 : R'[4]? = R[4]? := by
      have := congrArg (fun l => l[0]?) hR'
      simpa only [List.getElem?_drop, Nat.add_zero] using this
    have e5 : R'.drop 5 = R.drop 5 := by
      have := congrArg (List.drop 1) hR'
      simpa only [List.drop_drop] using this
    rw [e4, e5]

/-- Witness of C3: a response of four title rows, a header row and one data
row; the header keeps its blanks, the data row is trimmed cell by cell. -/
theorem fetchData_scenario :
    5 ≤ scenarioResponse.length
      ∧ some (fetchData (FetchResult.parsed (some scenarioResponse)) AppState.initial).headers
          = scenarioResponse[4]?
      ∧ fetchData (FetchResult.parsed (some scenarioResponse)) AppState.initial
          = { data := [["CS", "2", "", "", "Dr. Smith"]],
              headers := [some " Dept ", some "Year"],
              filters := Filters.initial } := by
  exact ⟨by decide,
    (fetchData_header_and_rows scenarioResponse (by decide) AppState.initial).1,
    by decide⟩

/-! ## Short rows -/

theorem filters_get_set (F : Filters) (field key : FilterKey) (selection : List String) :
    (F.set field selection).get key = if key = field then selection else F.get key := by
  cases field <;> cases key <;> rfl

theorem fetchData_filters (response : FetchResult) (s : AppState) :
    (fetchData response s).filters = s.filters := by
  cases response with
  | threw => rfl
  | parsed values =>
    cases values with
    | none => rfl
    | some rows =>
      unfold fetchData
      by_cases h : rows.length < 5
      · simp only [h, dite_true]
      · simp only [h, dite_false]

theorem createOptions_value_ne_empty (data : List Row) (c : Nat) (o : SelectOption)
    (h : o ∈ createOptions data c) : o.value ≠ "" := by
  have hmem : o.value ∈ (createOptions data c).map (fun o => o.value) :=
    List.mem_map.2 ⟨o, h, rfl⟩
  rw [createOptions_values] at hmem
  exact ((mem_filterTruthy _ _).1 hmem).1

theorem reachable_no_empty_selection (s : AppState) (hs : Reachable s) :
    ∀ key, "" ∉ s.filters.get key := by
  induction hs with
  | mount =>
    intro key
    cases key <;> exact List.not_mem_nil _
  | fetched s response _ ih =>
    intro key
    rw [fetchData_filters]
    exact ih key
  | changed s field selectedOptions _ hsel ih =>
    intro key
    show "" ∉ (handleFilterChange s.filters selectedOptions field).get key
    unfold handleFilterChange
    rw [filters_get_set]
    by_cases hk : key = field
    · rw [if_pos hk]
      intro hmem
      obtain ⟨o, ho, hval⟩ := List.mem_map.1 hmem
      exact createOptions_value_ne_empty s.data (columnMapping field) o (hsel o ho) hval
    · rw [if_neg hk]
      exact ih key

theorem rowPasses_padRow (F : Filters) (row : Row)
    (hF : ∀ key, row.length ≤ columnMapping key → "" ∉ F.get key) :
    rowPasses F row = rowPasses F (padRow row) := by
  unfold rowPasses
  congr 1
  funext key
  by_cases hsel : (F.get key).length = 0
  · simp only [hsel, if_true]
  · simp only [hsel, if_false]
    by_cases hlt : columnMapping key < row.length
    · rw [rowAt_padRow_of_lt row _ hlt]
    · have hge : row.length ≤ columnMapping key := Nat.le_of_not_lt hlt
      rw [rowAt_of_ge row _ hge, rowAt_padRow_of_ge row _ hge (columnMapping_le key),
        includes_none, includes_empty_string _ (hF key hge)]

/-- The claim C9 as stated fails: in the one-cell row CS the index of the key
year is beyond the row's length, and the lookup there is the absent value, not
the empty string. -/
theorem short_row_lookup_not_empty_string :
    (["CS"] : Row).length ≤ columnMapping FilterKey.year
      ∧ rowAt ["CS"] (columnMapping FilterKey.year) = none
      ∧ rowAt ["CS"] (columnMapping FilterKey.year) ≠ some "" := by
  decide

/-- C9 (amended): for every data row and every filter key whose mapped index
is at or beyond the row's length, looking up the row's value for that key
yields the absent value, where the padded row holds the empty string; in every
state the component can reach neither of the two is a member of the key's
selection, and the row passes the filter exactly when the same row padded with
empty-string cells up to index 11 passes it. -/
theorem short_row_padding_reachable (s : AppState) (hs : Reachable s) (row : Row) :
    (∀ key, row.length ≤ columnMapping key →
        rowAt row (columnMapping key) = none
          ∧ rowAt (padRow row) (columnMapping key) = some ""
          ∧ includes (s.filters.get key) (rowAt row (columnMapping key)) = false
          ∧ includes (s.filters.get key) (rowAt (padRow row) (columnMapping key)) = false)
      ∧ rowPasses s.filters row = rowPasses s.filters (padRow row) := by
  have hF := reachable_no_empty_selection s hs
  constructor
  · intro key hlen
    rw [rowAt_of_ge row _ hlen, rowAt_padRow_of_ge row _ hlen (columnMapping_le key)]
    exact ⟨rfl, rfl, includes_none _, includes_empty_string _ (hF key)⟩
  · exact rowPasses_padRow s.filters row (fun key _ => hF key)

/-- Witness of the amended C9: the scenario response is loaded, CS is picked
in the department dropdown, and the row is the one-cell row CS. -/
theorem short_row_padding_scenario :
    Reachable scenarioLoadedDepartment
      ∧ scenarioLoadedDepartment.filters.department = ["CS"]
      ∧ rowPasses scenarioLoadedDepartment.filters ["CS"]
          = rowPasses scenarioLoadedDepartment.filters (padRow ["CS"])
      ∧ rowPasses scenarioLoadedDepartment.filters ["CS"] = true := by
  have hr : Reachable scenarioLoadedDepartment :=
    Reachable.changed _ FilterKey.department [{ value := "CS", label := "CS" }]
      (Reachable.fetched _ _ Reachable.mount) (by decide)
  exact ⟨hr, by decide, (short_row_padding_reachable scenarioLoadedDepartment hr ["CS"]).2,
    by decide⟩

end TimeTable
